import Mathlib

/-!
Verification of the request-orchestration pipeline of the YouTube video
summarizer (`src/app.py`).

Strings are modelled as `List Char` (the characters of a Python `str`), so
that all definitions are executable and provable by induction.  Each Python
helper of `app.py` is translated into a Lean function of the same name;
the external collaborators (captions service, generation endpoint, speech
synthesis, temp-file creation) are modelled as oracles collected in a
`World`, and the Streamlit script body is modelled as a trace-producing
function `runScript` over those oracles.
-/

namespace YTS

/-- Python strings, modelled as their character lists. -/
abbrev Str := List Char

/-! ## Basic string helpers (Python `str` operations used by `urllib`). -/

/-- Split a string at the first occurrence of `c`:
`(before, some after)` when `c` occurs, `(s, none)` otherwise.
This is Python `s.split(c, 1)` keeping track of whether the separator
occurred. -/
def splitFirst (s : Str) (c : Char) : Str × Option Str :=
  match s with
  | [] => ([], none)
  | a :: rest =>
    if a = c then ([], some rest)
    else
      let r := splitFirst rest c
      (a :: r.1, r.2)

/-- Python `s.split(c)`: split on every occurrence of `c`;
the empty string yields `[""]`. -/
def splitOnC (c : Char) : Str → List Str
  | [] => [[]]
  | a :: rest =>
    if a = c then [] :: splitOnC c rest
    else
      match splitOnC c rest with
      | [] => [[a]]
      | s :: ss => (a :: s) :: ss

/-- Python `s.startswith(p)`. -/
def startsWithL : Str → Str → Bool
  | [], _ => true
  | _ :: _, [] => false
  | a :: p, b :: s => a = b && startsWithL p s

/-- Python `str.lower` (ASCII case folding, which is all the hostnames
in this program need). -/
def lowerStr (s : Str) : Str := s.map Char.toLower

/-! ## Model of `urllib.parse.urlparse` (the fields `app.py` reads). -/

/-- The components of a parsed URL that `extract_video_id` consults. -/
structure UrlParts where
  scheme : Str
  netloc : Str
  path : Str
  query : Str
  fragment : Str
deriving DecidableEq

/-- Characters allowed in a URL scheme (`urllib.parse.scheme_chars`). -/
def schemeChars (c : Char) : Bool :=
  c.isAlpha || c.isDigit || c = '+' || c = '-' || c = '.'

/-- WHATWG C0-control-or-space test: the characters `urlsplit` strips
from the front of a URL (code points 0 to 32). -/
def isC0OrSpace (c : Char) : Bool := decide (c.toNat ≤ 32)

/-- Preprocessing of modern `urlsplit`: strip leading C0 controls and
spaces, then remove every tab, carriage return and line feed. -/
def stripUnsafe (url : Str) : Str :=
  (url.dropWhile isC0OrSpace).filter
    (fun c => decide (c ≠ '\t' ∧ c ≠ '\r' ∧ c ≠ '\n'))

/-- Scheme splitting of `urlsplit` (CPython 3.11+ rule): the text before
the first `:` is a scheme when it is non-empty, starts with an ASCII
letter, and is made of scheme characters; it is lowercased and removed,
otherwise the URL is left untouched.  `Char.isAlpha` is exactly the
ASCII-letter test of `url[0].isascii() and url[0].isalpha()`. -/
def splitScheme (url : Str) : Str × Str :=
  match splitFirst url ':' with
  | (pre, some rest) =>
    match pre with
    | [] => ([], url)
    | c :: _ =>
      if c.isAlpha ∧ pre.all schemeChars then (lowerStr pre, rest)
      else ([], url)
  | (_, none) => ([], url)

/-- A character that ends the netloc section (`urllib`'s `_splitnetloc`
stops at the first of `/`, `?`, `#`). -/
def netlocEnd (c : Char) : Bool := c = '/' || c = '?' || c = '#'

/-- Netloc splitting of `urlparse`: when the remainder starts with `//`,
the netloc runs up to the first `/`, `?` or `#`. -/
def splitNetloc (rest : Str) : Str × Str :=
  if rest.take 2 = ['/', '/'] then
    let r := rest.drop 2
    (r.takeWhile (fun c => !netlocEnd c), r.dropWhile (fun c => !netlocEnd c))
  else ([], rest)

/-- Substring after the last `@` (Python `netloc.rpartition('@')[2]`,
used to discard user-info from the netloc). -/
def afterLastAt (s : Str) : Str :=
  ((s.reverse.takeWhile (fun c => c ≠ '@')).reverse)

/-- The `hostname` attribute of a parse result (`_hostinfo`): netloc
after the last `@`; when a `[` is present the hostname is the text
between the first `[` and the following `]`, otherwise it is cut at the
first `:` (port); lowercased either way.  Python returns `None` for an
empty hostname; that is modelled by the empty string, which compares
unequal to every hostname literal the program tests. -/
def hostnameOf (netloc : Str) : Str :=
  let hostinfo := afterLastAt netloc
  match splitFirst hostinfo '[' with
  | (_, some bracketed) => lowerStr (splitFirst bracketed ']').1
  | (_, none) => lowerStr (hostinfo.takeWhile (fun c => c ≠ ':'))

/-! ### Bracketed-netloc validation of `urlsplit`.

CPython's `urlsplit` raises `ValueError("Invalid IPv6 URL")` when the
netloc contains `[` without `]` or `]` without `[`; since 3.11 it also
validates a balanced bracketed host with `_check_bracketed_host`, which
accepts exactly an IPvFuture literal (`v` + hex digits + `.` + a
non-empty remainder) or a textually valid IPv6 address (optionally with
a `%scope`), and raises `ValueError` otherwise (including for an IPv4
address in brackets, which can never be textually IPv6).  The validity
tests below follow `ipaddress._ip_int_from_string`. -/

/-- Hexadecimal-digit test (`ipaddress._HEX_DIGITS`). -/
def isHexDigitC (c : Char) : Bool :=
  ('0' ≤ c && c ≤ '9') || ('a' ≤ c && c ≤ 'f') || ('A' ≤ c && c ≤ 'F')

/-- Numeric value of a decimal digit string. -/
def decVal (s : Str) : Nat := s.foldl (fun a c => a * 10 + (c.toNat - 48)) 0

/-- One octet of a dotted-quad IPv4 address as `_parse_octet` accepts
it: one to three ASCII digits, no leading zero except `0` itself, value
at most 255. -/
def validOctet (s : Str) : Bool :=
  !s.isEmpty && decide (s.length ≤ 3) &&
    s.all (fun c => '0' ≤ c && c ≤ '9') &&
    (decide (s.length = 1) || decide (s.head? ≠ some '0')) &&
    decide (decVal s ≤ 255)

/-- Textual IPv4 validity: exactly four valid octets joined by dots. -/
def validIPv4 (s : Str) : Bool :=
  let parts := splitOnC '.' s
  decide (parts.length = 4) && parts.all validOctet

/-- One hextet of an IPv6 address (`_parse_hextet`): one to four hex
digits. -/
def hextetOK (s : Str) : Bool :=
  !s.isEmpty && decide (s.length ≤ 4) && s.all isHexDigitC

/-- Validity of a colon-split IPv6 part list, after any embedded IPv4
tail has been replaced by two hextets: at most nine parts; at most one
empty interior part (the `::`); an empty first or last part only
adjacent to the `::`; fewer than eight parts covered when a `::` is
present, exactly eight otherwise; every counted part a valid hextet. -/
def validIPv6Core (parts : List Str) : Bool :=
  if decide (parts.length > 9) then false
  else
    let inner := (parts.drop 1).dropLast
    let nEmpty := inner.countP (fun p => p.isEmpty)
    if decide (2 ≤ nEmpty) then false
    else if decide (nEmpty = 1) then
      let skip := inner.findIdx (fun p => p.isEmpty) + 1
      let hi0 := skip
      let lo0 := parts.length - skip - 1
      let headEmpty := (parts.headD ['x']).isEmpty
      let lastEmpty := (parts.getLastD ['x']).isEmpty
      if headEmpty && decide (1 ≤ hi0 - 1) then false
      else if lastEmpty && decide (1 ≤ lo0 - 1) then false
      else
        let hi := if headEmpty then hi0 - 1 else hi0
        let lo := if lastEmpty then lo0 - 1 else lo0
        if decide (8 ≤ hi + lo) then false
        else
          (parts.take hi).all hextetOK &&
            (parts.drop (parts.length - lo)).all hextetOK
    else
      decide (parts.length = 8) && parts.all hextetOK

/-- Textual IPv6 validity without a scope id: split on `:`; at least
three parts; an embedded dotted-quad may stand as the last part. -/
def validIPv6NoScope (s : Str) : Bool :=
  let parts0 := splitOnC ':' s
  if decide (parts0.length < 3) then false
  else
    match parts0.getLast? with
    | none => false
    | some lastp =>
      if lastp.contains '.' then
        validIPv4 lastp && validIPv6Core (parts0.dropLast ++ [['0'], ['0']])
      else validIPv6Core parts0

/-- Textual IPv6 validity with an optional `%scope` suffix: the scope id
must be non-empty and contain no further `%`. -/
def validIPv6 (s : Str) : Bool :=
  match splitFirst s '%' with
  | (addr, some scope) =>
    !scope.isEmpty && scope.all (fun c => c ≠ '%') && validIPv6NoScope addr
  | (addr, none) => validIPv6NoScope addr

/-- IPvFuture test of `_check_bracketed_host`: lowercase `v`, one or
more hex digits, a dot, then a non-empty remainder without a line
feed (the regex is anchored and `.` does not match a newline). -/
def isIpvFuture (s : Str) : Bool :=
  match s with
  | 'v' :: rest =>
    let hexRun := rest.takeWhile isHexDigitC
    let after := rest.dropWhile isHexDigitC
    !hexRun.isEmpty &&
      (match after with
       | '.' :: tail => !tail.isEmpty && tail.all (fun c => c ≠ '\n')
       | _ => false)
  | _ => false

/-- The bracketed host `urlsplit` extracts for validation:
`netloc.partition('[')[2].partition(']')[0]`. -/
def bracketedOf (netloc : Str) : Str :=
  (splitFirst ((splitFirst netloc '[').2.getD []) ']').1

/-- Acceptance test of `_check_bracketed_host`: IPvFuture when the host
starts with `v`, otherwise a textually valid IPv6 address (a valid IPv4
address is never textually IPv6, so the in-brackets-IPv4 rejection is
subsumed). -/
def validBracketedHost (h : Str) : Bool :=
  if h.head? = some 'v' then isIpvFuture h else validIPv6 h

/-- Unbalanced-bracket test of `urlsplit`: `[` without `]` or `]`
without `[` in the netloc. -/
def unbalancedBrackets (netloc : Str) : Bool :=
  (netloc.contains '[' && !netloc.contains ']') ||
    (netloc.contains ']' && !netloc.contains '[')

/-- Balanced-but-invalid bracketed-host test of `urlsplit` (3.11+). -/
def invalidBracketed (netloc : Str) : Bool :=
  netloc.contains '[' && netloc.contains ']' &&
    !validBracketedHost (bracketedOf netloc)

/-- The `ValueError` kinds `urlsplit` can raise on these inputs:
`invalidIpv6` is `ValueError("Invalid IPv6 URL")` for unbalanced
brackets; `badBracketedHost` covers the `_check_bracketed_host`
rejections (3.11+). -/
inductive UrlError where
  | invalidIpv6
  | badBracketedHost
deriving DecidableEq

/-- Decidable equality for raise-or-return results, so concrete parses
can be checked by evaluation. -/
instance {ε α : Type} [DecidableEq ε] [DecidableEq α] :
    DecidableEq (Except ε α) := fun a b =>
  match a, b with
  | .ok x, .ok y =>
    if h : x = y then .isTrue (h ▸ rfl)
    else .isFalse (fun he => h (Except.ok.inj he))
  | .error x, .error y =>
    if h : x = y then .isTrue (h ▸ rfl)
    else .isFalse (fun he => h (Except.error.inj he))
  | .ok _, .error _ => .isFalse (fun he => Except.noConfusion he)
  | .error _, .ok _ => .isFalse (fun he => Except.noConfusion he)

/-- Model of `urllib.parse.urlparse` in the order the library applies
its steps: strip/remove unsafe characters, scheme, then netloc (only
after `//`) with its bracket checks — which raise, modelled as
`Except.error` — then fragment, then query.  The NFKC-normalization
check of `_checknetloc` can raise only for certain non-ASCII netlocs
and is not modelled; theorems that rely on a successful parse are
therefore stated for ASCII URLs. -/
def urlparse (url : Str) : Except UrlError UrlParts :=
  let u := stripUnsafe url
  let s1 := splitScheme u
  let s2 := splitNetloc s1.2
  if unbalancedBrackets s2.1 then .error .invalidIpv6
  else if invalidBracketed s2.1 then .error .badBracketedHost
  else
    let s3 := splitFirst s2.2 '#'
    let s4 := splitFirst s3.1 '?'
    .ok { scheme := s1.1
          netloc := s2.1
          path := s4.1
          query := s4.2.getD []
          fragment := s3.2.getD [] }

/-! ## Model of `urllib.parse.parse_qs` (first value of a key). -/

/-- Value of a hexadecimal digit, if `c` is one. -/
def hexVal (c : Char) : Option Nat :=
  if '0' ≤ c ∧ c ≤ '9' then some (c.toNat - '0'.toNat)
  else if 'a' ≤ c ∧ c ≤ 'f' then some (c.toNat - 'a'.toNat + 10)
  else if 'A' ≤ c ∧ c ≤ 'F' then some (c.toNat - 'A'.toNat + 10)
  else none

/-- Python `unquote_plus`: `+` becomes a space and `%XX` hex pairs are
decoded; a `%` not followed by two hex digits is kept literally. -/
def unquotePlus : Str → Str
  | [] => []
  | c :: rest =>
    if c = '+' then ' ' :: unquotePlus rest
    else if c = '%' then
      match rest with
      | a :: b :: rest2 =>
        match hexVal a, hexVal b with
        | some x, some y => Char.ofNat (16 * x + y) :: unquotePlus rest2
        | _, _ => '%' :: unquotePlus (a :: b :: rest2)
      | [a] => '%' :: unquotePlus [a]
      | [] => ['%']
    else c :: unquotePlus rest

/-- One `name=value` token of a query string, as `parse_qsl` treats it
with the default `keep_blank_values=False`: tokens without `=` and
tokens with an empty value are dropped; otherwise name and value are
unquoted. -/
def qsPair (token : Str) : Option (Str × Str) :=
  match splitFirst token '=' with
  | (_, none) => none
  | (name, some value) =>
    if value = [] then none
    else some (unquotePlus name, unquotePlus value)

/-- Python `parse_qsl(qs)`: split on `&`, keep the well-formed pairs in
order. -/
def parse_qsl (qs : Str) : List (Str × Str) :=
  (splitOnC '&' qs).filterMap qsPair

/-- Python `parse_qs(qs).get(key, [None])[0]`: the first value bound to
`key`, or absent.  `parse_qs` groups values per key in encounter order,
so the first element of the group is the first matching pair of
`parse_qsl`. -/
def getQueryFirst (qs : Str) (key : Str) : Option Str :=
  ((parse_qsl qs).find? (fun p => p.1 = key)).map (fun p => p.2)

/-! ## `extract_video_id` (app.py lines 107-116). -/

/-- Translation of `extract_video_id`: `youtu.be` takes the path after
the leading slash; `www.youtube.com`/`youtube.com` takes the first `v`
query value on `/watch`, or path segment 2 on `/embed/` and `/v/`;
anything else is `None`.  The function has no handler, so a
`ValueError` raised by `urlparse` propagates to the caller, modelled by
the `Except.error` passing through. -/
def extract_video_id (url : Str) : Except UrlError (Option Str) :=
  match urlparse url with
  | .error e => .error e
  | .ok q =>
    .ok (
      if hostnameOf q.netloc = "youtu.be".toList then
        some (q.path.drop 1)
      else if hostnameOf q.netloc = "www.youtube.com".toList ∨
          hostnameOf q.netloc = "youtube.com".toList then
        if q.path = "/watch".toList then
          getQueryFirst q.query "v".toList
        else if startsWithL "/embed/".toList q.path ||
            startsWithL "/v/".toList q.path then
          -- the `startswith` guard ensures the path has a segment at
          -- index 2, so Python's `split('/')[2]` cannot raise here
          some ((splitOnC '/' q.path).getD 2 [])
        else none
      else none)

/-! ## External collaborators, modelled as oracles. -/

/-- One caption entry as the captions service returns it
(`{text, start, duration}`-shaped; only `text` is read by the code, the
timing fields are carried along untouched). -/
structure CaptionEntry where
  text : Str
  startMs : Int
  durationMs : Int
deriving DecidableEq

/-- Outcome of one call to the captions service
(`YouTubeTranscriptApi.get_transcript`): a transcript, or one of the two
distinguished terminal exceptions, or any other exception with its
message. -/
inductive FetchOutcome where
  | ok (entries : List CaptionEntry)
  | transcriptsDisabled
  | noTranscriptFound
  | otherError (msg : Str)
deriving DecidableEq

/-- Outcome of one call to the generation endpoint as seen through the
SDK: `generate_content` followed by `response.text`.  With at least one
candidate, `.text` yields the first candidate's text; with zero
candidates, `.text` raises an exception whose rendered message is
`excMsg`; a transport failure raises from `generate_content` with
message `excMsg`.  Both failure shapes reach the same `except Exception`
handler in `app.py`. -/
inductive GenOutcome where
  | candidates (first : Str)
  | noCandidates (excMsg : Str)
  | transportError (excMsg : Str)
deriving DecidableEq

/-- Outcome of speech synthesis plus temp-file save in `generate_tts`:
success returns the temp path and the audio bytes; the `gTTS`
constructor may raise before any file exists; `tts.save` may raise
after the temp file was already created. -/
inductive TtsOutcome where
  | ok (path : Str) (audio : Str)
  | ctorFail (msg : Str)
  | saveFail (path : Str) (msg : Str)
deriving DecidableEq

/-- Outcome of the temp-file part of `create_pdf`: success returns the
temp path; creating the temp file may raise before it exists;
`pdf.output` may raise after the temp file was already created. -/
inductive PdfOutcome where
  | ok (path : Str)
  | createFail (msg : Str)
  | outputFail (path : Str) (msg : Str)
deriving DecidableEq

/-- The oracles for every external call one script run can make.  A
`World` fixes the responses for this run; the pipeline itself is a pure
function of the world and the user inputs. -/
structure World where
  fetch : Str → List Str → FetchOutcome
  gen : Str → GenOutcome
  tts : Str → TtsOutcome
  pdfTemp : PdfOutcome

/-- A user-visible report (`st.error` / `st.warning`). -/
inductive Msg where
  | error (s : Str)
  | warning (s : Str)
deriving DecidableEq

/-- Observable events of one script run: external calls, reports, file
effects and rendered output, in program order.  `fileDeleted` is in the
vocabulary so that cleanup claims can be stated; the translated code
never emits it because `app.py` contains no file deletion.  `crashed`
marks an exception propagating out of the script body (Streamlit then
shows the traceback and the run ends). -/
inductive Event where
  | report (m : Msg)
  | halted
  | crashed (e : UrlError)
  | fetchCall (videoId : Str) (languages : List Str)
  | genCall (prompt : Str)
  | ttsCall (text : Str)
  | pdfCall (text : Str)
  | fileCreated (path : Str) (content : Str)
  | fileDeleted (path : Str)
  | showImage (url : Str)
  | showSummary (s : Str)
  | showTranscript (s : Str)
  | offerPdf (path : Str)
  | playAudio (path : Str)
  | showShare (url : Str)
deriving DecidableEq

/-! ## The helper functions of app.py, with their observable traces. -/

/-- The language priority list `['en', 'en-US', 'hi']` passed to the
captions service. -/
def LANGS : List Str := ["en".toList, "en-US".toList, "hi".toList]

/-- Python `" ".join(items)`. -/
def joinSpace : List Str → Str
  | [] => []
  | [t] => t
  | t :: rest => t ++ ' ' :: joinSpace rest

/-- Report text of the `TranscriptsDisabled` handler. -/
def disabledMsg : Str := "Transcripts are disabled for this video.".toList

/-- Report text of the `NoTranscriptFound` handler. -/
def noTranscriptMsg : Str :=
  "No English transcript could be found for this video.".toList

/-- Report text prefix of the generic fetch exception handler. -/
def fetchErrPre : Str :=
  "An error occurred while fetching the transcript: ".toList

/-- Translation of `get_transcript` (app.py lines 118-129): one service
call; on success the entry texts joined by single spaces in service
order; each exception handler reports and falls through to `return
None`. -/
def get_transcript (w : World) (video_id : Str) : Option Str × List Event :=
  match w.fetch video_id LANGS with
  | .ok entries =>
    (some (joinSpace (entries.map (fun e => e.text))),
     [.fetchCall video_id LANGS])
  | .transcriptsDisabled =>
    (none, [.fetchCall video_id LANGS, .report (.error disabledMsg)])
  | .noTranscriptFound =>
    (none, [.fetchCall video_id LANGS, .report (.warning noTranscriptMsg)])
  | .otherError m =>
    (none, [.fetchCall video_id LANGS, .report (.error (fetchErrPre ++ m))])

/-- The prompt built by `summarize_text_gemini`: the f-string with the
word count and the full transcript spliced in. -/
def promptFor (word_count : Nat) (text : Str) : Str :=
  "Summarize the following YouTube transcript into concise bullet points, aiming for a total of around ".toList
    ++ (Nat.repr word_count).toList
    ++ " words:\n\n".toList
    ++ text

/-- Report text prefix of the summarization exception handler. -/
def summErrPre : Str := "An error occurred during summarization: ".toList

/-- Translation of `summarize_text_gemini` (app.py lines 131-139): build
the prompt, call the endpoint once, return the first candidate's text;
any exception (zero candidates or transport) is caught, reported with
its message, and turned into `None`. -/
def summarize_text_gemini (w : World) (text : Str) (word_count : Nat) :
    Option Str × List Event :=
  match w.gen (promptFor word_count text) with
  | .candidates t =>
    (some t, [.genCall (promptFor word_count text)])
  | .noCandidates m =>
    (none, [.genCall (promptFor word_count text), .report (.error (summErrPre ++ m))])
  | .transportError m =>
    (none, [.genCall (promptFor word_count text), .report (.error (summErrPre ++ m))])

/-- Report text prefix of the TTS exception handler. -/
def ttsErrPre : Str := "Failed to generate audio: ".toList

/-- Translation of `generate_tts` (app.py lines 141-149): synthesize,
save to a `delete=False` temp file, return its path; any exception is
caught, reported, and turned into `None`.  When `save` fails the temp
file already exists and is not removed. -/
def generate_tts (w : World) (summary : Str) : Option Str × List Event :=
  match w.tts summary with
  | .ok path audio =>
    (some path, [.ttsCall summary, .fileCreated path audio])
  | .ctorFail m =>
    (none, [.ttsCall summary, .report (.error (ttsErrPre ++ m))])
  | .saveFail path m =>
    (none, [.ttsCall summary, .fileCreated path [],
            .report (.error (ttsErrPre ++ m))])

/-- Python `summary.encode('latin-1', 'replace').decode('latin-1')`:
every character above U+00FF becomes `?`, the rest are unchanged. -/
def latin1Replace (s : Str) : Str :=
  s.map (fun c => if c.toNat ≤ 255 then c else '?')

/-- Model of the bytes `FPDF.output` writes: the (never empty) document
structure around the text placed by `multi_cell`. -/
def fpdfOutput (body : Str) : Str := "%PDF-1.3 ".toList ++ body

/-- Report text prefix of the PDF exception handler. -/
def pdfErrPre : Str := "Failed to create PDF: ".toList

/-- Translation of `create_pdf` (app.py lines 151-164): the summary is
re-encoded with latin-1 replacement, placed in the document, and written
to a `delete=False` temp file whose path is returned; an exception in
the temp-file block is caught, reported, and turned into `None`.  When
`pdf.output` fails the temp file already exists (empty) and is not
removed. -/
def create_pdf (w : World) (summary : Str) : Option Str × List Event :=
  match w.pdfTemp with
  | .ok path =>
    (some path, [.pdfCall summary,
                 .fileCreated path (fpdfOutput (latin1Replace summary))])
  | .createFail m =>
    (none, [.pdfCall summary, .report (.error (pdfErrPre ++ m))])
  | .outputFail path m =>
    (none, [.pdfCall summary, .fileCreated path [],
            .report (.error (pdfErrPre ++ m))])

/-- Translation of `get_youtube_thumbnail_url`. -/
def get_youtube_thumbnail_url (video_id : Str) : Str :=
  "https://img.youtube.com/vi/".toList ++ video_id ++ "/maxresdefault.jpg".toList

/-- UTF-8 bytes of a character (Python URL quoting encodes via UTF-8). -/
def utf8Bytes (c : Char) : List Nat :=
  let n := c.toNat
  if n < 128 then [n]
  else if n < 2048 then [192 + n / 64, 128 + n % 64]
  else if n < 65536 then
    [224 + n / 4096, 128 + (n / 64) % 64, 128 + n % 64]
  else
    [240 + n / 262144, 128 + (n / 4096) % 64, 128 + (n / 64) % 64, 128 + n % 64]

/-- Uppercase hexadecimal digit of a value below 16. -/
def hexDigitU (n : Nat) : Char :=
  if n < 10 then Char.ofNat (48 + n) else Char.ofNat (55 + n)

/-- Python `quote_plus`: spaces become `+`; ASCII alphanumerics and
`_.-~` pass through; everything else is percent-encoded per UTF-8
byte. -/
def quote_plus (s : Str) : Str :=
  s.flatMap (fun c =>
    if c = ' ' then ['+']
    else if c.isAlphanum ∨ c = '_' ∨ c = '.' ∨ c = '-' ∨ c = '~' then [c]
    else (utf8Bytes c).flatMap (fun b => ['%', hexDigitU (b / 16), hexDigitU (b % 16)]))

/-- The WhatsApp share link built for a summary. -/
def shareUrl (summary : Str) : Str :=
  "https://api.whatsapp.com/send?text=".toList ++ quote_plus summary

/-! ## The script body (startup check plus the button-triggered pipeline). -/

/-- Report text of the startup credential check. -/
def apiKeyMissingMsg : Str :=
  "Gemini API Key not found. Please add GEMINI_API_KEY to your Streamlit secrets.".toList

/-- Report text of the invalid-URL branch. -/
def invalidUrlMsg : Str :=
  "Invalid YouTube URL. Please enter a valid URL.".toList

/-- Report text of the empty-input branch. -/
def enterUrlMsg : Str := "Please enter a YouTube video URL.".toList

/-- The per-run user inputs and configuration: the secret store lookup
of `GEMINI_API_KEY`, the text field, the word-count selectbox, and
whether the button fired this run. -/
structure Inputs where
  secrets : Option Str
  url : Str
  wordCount : Nat
  buttonPressed : Bool

/-- Translation of the script body of `app.py`: the startup
`st.secrets` lookup halts the run with an error when the key is missing
(lines 82-89); otherwise the button block (lines 178-220) runs the
pipeline with Python truthiness at every stage gate (`if youtube_url:`,
`if video_id:`, `if transcript:`, `if summary:`, `if pdf_path:`,
`if tts_path:`), where `None` and the empty string are both falsy.  The
call `extract_video_id(youtube_url)` has no surrounding handler, so a
`ValueError` from `urlparse` ends the run (`crashed`). -/
def runScript (w : World) (inp : Inputs) : List Event :=
  match inp.secrets with
  | none => [.report (.error apiKeyMissingMsg), .halted]
  | some _ =>
    if inp.buttonPressed then
      if inp.url ≠ [] then
        match extract_video_id inp.url with
        | .error e => [.crashed e]
        | .ok none => [.report (.error invalidUrlMsg)]
        | .ok (some video_id) =>
          if video_id = [] then [.report (.error invalidUrlMsg)]
          else
            let tr := get_transcript w video_id
            Event.showImage (get_youtube_thumbnail_url video_id) :: tr.2 ++
            (match tr.1 with
             | none => []
             | some transcript =>
               if transcript = [] then []
               else
                 let sm := summarize_text_gemini w transcript inp.wordCount
                 sm.2 ++
                 (match sm.1 with
                  | none => []
                  | some summary =>
                    if summary = [] then []
                    else
                      Event.showSummary summary ::
                      Event.showTranscript transcript ::
                      (let pdf := create_pdf w summary
                       pdf.2 ++
                       (match pdf.1 with
                        | none => []
                        | some p => if p = [] then [] else [Event.offerPdf p])) ++
                      (let tts := generate_tts w summary
                       tts.2 ++
                       (match tts.1 with
                        | none => []
                        | some p => if p = [] then [] else [Event.playAudio p])) ++
                      [Event.showShare (shareUrl summary)]))
      else [.report (.warning enterUrlMsg)]
    else []

/-! ## Concrete demonstration worlds and inputs. -/

/-- Demonstration world where every external call succeeds. -/
def wOk : World where
  fetch := fun _ _ => .ok [⟨"hello".toList, 0, 2⟩, ⟨"world".toList, 2, 2⟩]
  gen := fun _ => .candidates "A short summary.".toList
  tts := fun _ => .ok "/tmp/audio.mp3".toList "AUDIOBYTES".toList
  pdfTemp := .ok "/tmp/summary.pdf".toList

/-- Demonstration world whose captions service reports disabled captions. -/
def wDisabled : World := { wOk with fetch := fun _ _ => .transcriptsDisabled }

/-- Demonstration world whose captions service returns an empty entry
sequence. -/
def wEmptyT : World := { wOk with fetch := fun _ _ => .ok [] }

/-- Demonstration world whose generation endpoint returns zero
candidates. -/
def wNoCand : World :=
  { wOk with gen := fun _ => .noCandidates "response has no candidates".toList }

/-- Demonstration inputs: key present, a well-formed watch URL, the 400
word budget, button pressed. -/
def inpOk : Inputs :=
  ⟨some "KEY".toList, "https://www.youtube.com/watch?v=abc123".toList, 400, true⟩

/-- Demonstration inputs with the credential missing from the secret
store. -/
def inpNoKey : Inputs :=
  ⟨none, "https://www.youtube.com/watch?v=abc123".toList, 400, true⟩

/-- Characters the platform's identifier grammar uses (letters, digits,
`-`, `_`), from the data-model invariant that an identifier is a short
opaque token. -/
def idChar (c : Char) : Bool := c.isAlphanum || c = '-' || c = '_'

/-- ASCII test (`str.isascii`), used to scope parse-success theorems to
the URLs on which the unmodelled NFKC netloc check is a no-op. -/
def isAsciiC (c : Char) : Bool := decide (c.toNat ≤ 127)

/-- The recognized hostnames of `extract_video_id`. -/
def knownHosts : List Str :=
  ["youtu.be".toList, "www.youtube.com".toList, "youtube.com".toList]

/-! ## General lemmas about the string helpers. -/

theorem splitFirst_sep (pre s : Str) (c : Char) (h : ∀ a ∈ pre, a ≠ c) :
    splitFirst (pre ++ c :: s) c = (pre, some s) := by
  induction pre with
  | nil => simp [splitFirst]
  | cons a rest ih =>
    have ha : a ≠ c := h a (by simp)
    have ih2 := ih (fun x hx => h x (by simp [hx]))
    simp [splitFirst, if_neg ha, ih2]

theorem splitFirst_none (s : Str) (c : Char) (h : ∀ a ∈ s, a ≠ c) :
    splitFirst s c = (s, none) := by
  induction s with
  | nil => simp [splitFirst]
  | cons a rest ih =>
    have ha : a ≠ c := h a (by simp)
    have ih2 := ih (fun x hx => h x (by simp [hx]))
    simp [splitFirst, if_neg ha, ih2]

theorem splitOnC_nosep (c : Char) (s : Str) (h : ∀ a ∈ s, a ≠ c) :
    splitOnC c s = [s] := by
  induction s with
  | nil => simp [splitOnC]
  | cons a rest ih =>
    have ha : a ≠ c := h a (by simp)
    have ih2 := ih (fun x hx => h x (by simp [hx]))
    simp [splitOnC, if_neg ha, ih2]

theorem splitOnC_sep (c : Char) (pre s : Str) (h : ∀ a ∈ pre, a ≠ c) :
    splitOnC c (pre ++ c :: s) = pre :: splitOnC c s := by
  induction pre with
  | nil => simp [splitOnC]
  | cons a rest ih =>
    have ha : a ≠ c := h a (by simp)
    have ih2 := ih (fun x hx => h x (by simp [hx]))
    simp [splitOnC, if_neg ha, ih2]

theorem startsWithL_append (p s : Str) : startsWithL p (p ++ s) = true := by
  induction p with
  | nil => simp [startsWithL]
  | cons a rest ih => simp [startsWithL, ih]

theorem unquotePlus_plain (s : Str) (h : ∀ a ∈ s, a ≠ '+' ∧ a ≠ '%') :
    unquotePlus s = s := by
  induction s with
  | nil => simp [unquotePlus]
  | cons a rest ih =>
    have ha := h a (by simp)
    have ih2 := ih (fun x hx => h x (by simp [hx]))
    rw [unquotePlus.eq_def]
    simp [ha.1, ha.2, ih2]

theorem all_ne_of_idChar {id : Str} (hid : id.all idChar = true) {c : Char}
    (hc : idChar c = false) : ∀ a ∈ id, a ≠ c := by
  intro a ha he
  rw [List.all_eq_true] at hid
  have h1 := hid a ha
  rw [he, hc] at h1
  exact Bool.false_ne_true h1

/-! ## Parse results of the recognized URL shapes. -/

theorem stripUnsafe_cons_clean (a : Char) (s : Str) (ha : isC0OrSpace a = false)
    (hkeep : ∀ x ∈ a :: s, x ≠ '\t' ∧ x ≠ '\r' ∧ x ≠ '\n') :
    stripUnsafe (a :: s) = a :: s := by
  unfold stripUnsafe
  have hd : List.dropWhile isC0OrSpace (a :: s) = a :: s := by
    simp [List.dropWhile, ha]
  rw [hd]
  apply List.filter_eq_self.mpr
  intro x hx
  rcases hkeep x hx with ⟨h1, h2, h3⟩
  simp [h1, h2, h3]

theorem urlparse_short (id : Str) (hid : id.all idChar = true) :
    urlparse ("https://youtu.be/".toList ++ id) =
      .ok ⟨"https".toList, "youtu.be".toList, '/' :: id, [], []⟩ := by
  have hkeep : ∀ x ∈ "https://youtu.be/".toList ++ id,
      x ≠ '\t' ∧ x ≠ '\r' ∧ x ≠ '\n' := by
    intro x hx
    rcases List.mem_append.mp hx with h | h
    · exact (by decide : ∀ y ∈ "https://youtu.be/".toList,
        y ≠ '\t' ∧ y ≠ '\r' ∧ y ≠ '\n') x h
    · exact ⟨all_ne_of_idChar hid (by decide) x h,
        all_ne_of_idChar hid (by decide) x h,
        all_ne_of_idChar hid (by decide) x h⟩
  have hstrip : stripUnsafe ("https://youtu.be/".toList ++ id) =
      "https://youtu.be/".toList ++ id :=
    stripUnsafe_cons_clean 'h' ("ttps://youtu.be/".toList ++ id) (by decide) hkeep
  have h1 : splitFirst ("https://youtu.be/".toList ++ id) ':' =
      ("https".toList, some ("//youtu.be/".toList ++ id)) :=
    splitFirst_sep "https".toList ("//youtu.be/".toList ++ id) ':' (by decide)
  have h2 : splitScheme ("https://youtu.be/".toList ++ id) =
      ("https".toList, "//youtu.be/".toList ++ id) := by
    unfold splitScheme
    rw [h1]
    simp [lowerStr]
    decide
  have h3 : splitNetloc ("//youtu.be/".toList ++ id) =
      ("youtu.be".toList, '/' :: id) := by
    unfold splitNetloc
    simp [List.takeWhile, List.dropWhile, netlocEnd]
  have h4 : splitFirst ('/' :: id) '#' = ('/' :: id, none) := by
    apply splitFirst_none
    intro a ha
    rcases List.mem_cons.mp ha with rfl | h
    · decide
    · exact all_ne_of_idChar hid (by decide) a h
  have h5 : splitFirst ('/' :: id) '?' = ('/' :: id, none) := by
    apply splitFirst_none
    intro a ha
    rcases List.mem_cons.mp ha with rfl | h
    · decide
    · exact all_ne_of_idChar hid (by decide) a h
  unfold urlparse
  rw [hstrip]
  simp only []
  rw [h2]
  simp only []
  rw [h3]
  simp only []
  rw [(by decide : unbalancedBrackets "youtu.be".toList = false)]
  rw [(by decide : invalidBracketed "youtu.be".toList = false)]
  simp only [Bool.false_eq_true, if_false]
  rw [h4]
  simp only []
  rw [h5]
  simp

theorem urlparse_watch (id extra : Str) (hid : id.all idChar = true)
    (hx : extra = [] ∨ ∃ e, extra = '&' :: e ∧
      ∀ a ∈ e, a ≠ '#' ∧ a ≠ '\t' ∧ a ≠ '\r' ∧ a ≠ '\n') :
    urlparse ("https://www.youtube.com/watch?v=".toList ++ id ++ extra) =
      .ok ⟨"https".toList, "www.youtube.com".toList, "/watch".toList,
       "v=".toList ++ id ++ extra, []⟩ := by
  have hkeep : ∀ x ∈ "https://www.youtube.com/watch?v=".toList ++ id ++ extra,
      x ≠ '\t' ∧ x ≠ '\r' ∧ x ≠ '\n' := by
    intro x hx2
    rcases List.mem_append.mp hx2 with h | h
    · rcases List.mem_append.mp h with h | h
      · exact (by decide : ∀ y ∈ "https://www.youtube.com/watch?v=".toList,
          y ≠ '\t' ∧ y ≠ '\r' ∧ y ≠ '\n') x h
      · exact ⟨all_ne_of_idChar hid (by decide) x h,
          all_ne_of_idChar hid (by decide) x h,
          all_ne_of_idChar hid (by decide) x h⟩
    · rcases hx with rfl | ⟨e, rfl, he⟩
      · simp at h
      · rcases List.mem_cons.mp h with rfl | h
        · decide
        · exact ⟨(he x h).2.1, (he x h).2.2.1, (he x h).2.2.2⟩
  have hstrip : stripUnsafe ("https://www.youtube.com/watch?v=".toList ++ id ++ extra) =
      "https://www.youtube.com/watch?v=".toList ++ id ++ extra :=
    stripUnsafe_cons_clean 'h'
      (("ttps://www.youtube.com/watch?v=".toList ++ id) ++ extra) (by decide) hkeep
  have h1 : splitFirst ("https://www.youtube.com/watch?v=".toList ++ id ++ extra) ':' =
      ("https".toList, some ("//www.youtube.com/watch?v=".toList ++ id ++ extra)) :=
    splitFirst_sep "https".toList (("//www.youtube.com/watch?v=".toList ++ id) ++ extra)
      ':' (by decide)
  have h2 : splitScheme ("https://www.youtube.com/watch?v=".toList ++ id ++ extra) =
      ("https".toList, "//www.youtube.com/watch?v=".toList ++ id ++ extra) := by
    unfold splitScheme
    rw [h1]
    simp [lowerStr]
    decide
  have h3 : splitNetloc ("//www.youtube.com/watch?v=".toList ++ id ++ extra) =
      ("www.youtube.com".toList, "/watch?v=".toList ++ id ++ extra) := by
    unfold splitNetloc
    simp [List.takeWhile, List.dropWhile, netlocEnd]
  have h4 : splitFirst ("/watch?v=".toList ++ id ++ extra) '#' =
      ("/watch?v=".toList ++ id ++ extra, none) := by
    apply splitFirst_none
    intro a ha
    rcases List.mem_append.mp ha with h | h
    · rcases List.mem_append.mp h with h | h
      · exact (by decide : ∀ x ∈ "/watch?v=".toList, x ≠ '#') a h
      · exact all_ne_of_idChar hid (by decide) a h
    · rcases hx with rfl | ⟨e, rfl, he⟩
      · simp at h
      · rcases List.mem_cons.mp h with rfl | h
        · decide
        · exact (he a h).1
  have h5 : splitFirst ("/watch?v=".toList ++ id ++ extra) '?' =
      ("/watch".toList, some ("v=".toList ++ id ++ extra)) :=
    splitFirst_sep "/watch".toList (("v=".toList ++ id) ++ extra) '?' (by decide)
  unfold urlparse
  rw [hstrip]
  simp only []
  rw [h2]
  simp only []
  rw [h3]
  simp only []
  rw [(by decide : unbalancedBrackets "www.youtube.com".toList = false)]
  rw [(by decide : invalidBracketed "www.youtube.com".toList = false)]
  simp only [Bool.false_eq_true, if_false]
  rw [h4]
  simp only []
  rw [h5]
  simp

theorem urlparse_embed (id : Str) (hid : id.all idChar = true) :
    urlparse ("https://www.youtube.com/embed/".toList ++ id) =
      .ok ⟨"https".toList, "www.youtube.com".toList, "/embed/".toList ++ id,
        [], []⟩ := by
  have hkeep : ∀ x ∈ "https://www.youtube.com/embed/".toList ++ id,
      x ≠ '\t' ∧ x ≠ '\r' ∧ x ≠ '\n' := by
    intro x hx
    rcases List.mem_append.mp hx with h | h
    · exact (by decide : ∀ y ∈ "https://www.youtube.com/embed/".toList,
        y ≠ '\t' ∧ y ≠ '\r' ∧ y ≠ '\n') x h
    · exact ⟨all_ne_of_idChar hid (by decide) x h,
        all_ne_of_idChar hid (by decide) x h,
        all_ne_of_idChar hid (by decide) x h⟩
  have hstrip : stripUnsafe ("https://www.youtube.com/embed/".toList ++ id) =
      "https://www.youtube.com/embed/".toList ++ id :=
    stripUnsafe_cons_clean 'h' ("ttps://www.youtube.com/embed/".toList ++ id)
      (by decide) hkeep
  have h1 : splitFirst ("https://www.youtube.com/embed/".toList ++ id) ':' =
      ("https".toList, some ("//www.youtube.com/embed/".toList ++ id)) :=
    splitFirst_sep "https".toList ("//www.youtube.com/embed/".toList ++ id) ':' (by decide)
  have h2 : splitScheme ("https://www.youtube.com/embed/".toList ++ id) =
      ("https".toList, "//www.youtube.com/embed/".toList ++ id) := by
    unfold splitScheme
    rw [h1]
    simp [lowerStr]
    decide
  have h3 : splitNetloc ("//www.youtube.com/embed/".toList ++ id) =
      ("www.youtube.com".toList, "/embed/".toList ++ id) := by
    unfold splitNetloc
    simp [List.takeWhile, List.dropWhile, netlocEnd]
  have h4 : splitFirst ("/embed/".toList ++ id) '#' =
      ("/embed/".toList ++ id, none) := by
    apply splitFirst_none
    intro a ha
    rcases List.mem_append.mp ha with h | h
    · exact (by decide : ∀ x ∈ "/embed/".toList, x ≠ '#') a h
    · exact all_ne_of_idChar hid (by decide) a h
  have h5 : splitFirst ("/embed/".toList ++ id) '?' =
      ("/embed/".toList ++ id, none) := by
    apply splitFirst_none
    intro a ha
    rcases List.mem_append.mp ha with h | h
    · exact (by decide : ∀ x ∈ "/embed/".toList, x ≠ '?') a h
    · exact all_ne_of_idChar hid (by decide) a h
  unfold urlparse
  rw [hstrip]
  simp only []
  rw [h2]
  simp only []
  rw [h3]
  simp only []
  rw [(by decide : unbalancedBrackets "www.youtube.com".toList = false)]
  rw [(by decide : invalidBracketed "www.youtube.com".toList = false)]
  simp only [Bool.false_eq_true, if_false]
  rw [h4]
  simp only []
  rw [h5]
  simp

theorem urlparse_vpath (id : Str) (hid : id.all idChar = true) :
    urlparse ("https://www.youtube.com/v/".toList ++ id) =
      .ok ⟨"https".toList, "www.youtube.com".toList, "/v/".toList ++ id,
        [], []⟩ := by
  have hkeep : ∀ x ∈ "https://www.youtube.com/v/".toList ++ id,
      x ≠ '\t' ∧ x ≠ '\r' ∧ x ≠ '\n' := by
    intro x hx
    rcases List.mem_append.mp hx with h | h
    · exact (by decide : ∀ y ∈ "https://www.youtube.com/v/".toList,
        y ≠ '\t' ∧ y ≠ '\r' ∧ y ≠ '\n') x h
    · exact ⟨all_ne_of_idChar hid (by decide) x h,
        all_ne_of_idChar hid (by decide) x h,
        all_ne_of_idChar hid (by decide) x h⟩
  have hstrip : stripUnsafe ("https://www.youtube.com/v/".toList ++ id) =
      "https://www.youtube.com/v/".toList ++ id :=
    stripUnsafe_cons_clean 'h' ("ttps://www.youtube.com/v/".toList ++ id)
      (by decide) hkeep
  have h1 : splitFirst ("https://www.youtube.com/v/".toList ++ id) ':' =
      ("https".toList, some ("//www.youtube.com/v/".toList ++ id)) :=
    splitFirst_sep "https".toList ("//www.youtube.com/v/".toList ++ id) ':' (by decide)
  have h2 : splitScheme ("https://www.youtube.com/v/".toList ++ id) =
      ("https".toList, "//www.youtube.com/v/".toList ++ id) := by
    unfold splitScheme
    rw [h1]
    simp [lowerStr]
    decide
  have h3 : splitNetloc ("//www.youtube.com/v/".toList ++ id) =
      ("www.youtube.com".toList, "/v/".toList ++ id) := by
    unfold splitNetloc
    simp [List.takeWhile, List.dropWhile, netlocEnd]
  have h4 : splitFirst ("/v/".toList ++ id) '#' = ("/v/".toList ++ id, none) := by
    apply splitFirst_none
    intro a ha
    rcases List.mem_append.mp ha with h | h
    · exact (by decide : ∀ x ∈ "/v/".toList, x ≠ '#') a h
    · exact all_ne_of_idChar hid (by decide) a h
  have h5 : splitFirst ("/v/".toList ++ id) '?' = ("/v/".toList ++ id, none) := by
    apply splitFirst_none
    intro a ha
    rcases List.mem_append.mp ha with h | h
    · exact (by decide : ∀ x ∈ "/v/".toList, x ≠ '?') a h
    · exact all_ne_of_idChar hid (by decide) a h
  unfold urlparse
  rw [hstrip]
  simp only []
  rw [h2]
  simp only []
  rw [h3]
  simp only []
  rw [(by decide : unbalancedBrackets "www.youtube.com".toList = false)]
  rw [(by decide : invalidBracketed "www.youtube.com".toList = false)]
  simp only [Bool.false_eq_true, if_false]
  rw [h4]
  simp only []
  rw [h5]
  simp

/-! ## Evaluation of `extract_video_id` on the recognized shapes. -/

theorem getQueryFirst_v (id extra : Str) (hne : id ≠ [])
    (hid : id.all idChar = true) (hx : extra = [] ∨ ∃ e, extra = '&' :: e) :
    getQueryFirst ("v=".toList ++ id ++ extra) "v".toList = some id := by
  have hidc : ∀ a ∈ id, a ≠ '&' := all_ne_of_idChar hid (by decide)
  have huq : unquotePlus id = id :=
    unquotePlus_plain id (fun a ha =>
      ⟨all_ne_of_idChar hid (by decide) a ha, all_ne_of_idChar hid (by decide) a ha⟩)
  have hpair : qsPair ("v=".toList ++ id) = some ("v".toList, id) := by
    have hsf : splitFirst ("v=".toList ++ id) '=' = ("v".toList, some id) :=
      splitFirst_sep "v".toList id '=' (by decide)
    unfold qsPair
    rw [hsf]
    simp only []
    rw [if_neg hne, huq]
    rw [(by decide : unquotePlus "v".toList = "v".toList)]
  have hnoamp : ∀ a ∈ "v=".toList ++ id, a ≠ '&' := by
    intro a ha
    rcases List.mem_append.mp ha with h | h
    · exact (by decide : ∀ x ∈ "v=".toList, x ≠ '&') a h
    · exact hidc a h
  have hpair2 : qsPair ('v' :: '=' :: id) = some ("v".toList, id) := hpair
  rcases hx with rfl | ⟨e, rfl⟩
  · have hq : splitOnC '&' ("v=".toList ++ id ++ []) = ["v=".toList ++ id] := by
      rw [List.append_nil]
      exact splitOnC_nosep '&' _ hnoamp
    unfold getQueryFirst parse_qsl
    rw [hq]
    simp [hpair2]
  · have hq : splitOnC '&' ("v=".toList ++ id ++ ('&' :: e)) =
        ("v=".toList ++ id) :: splitOnC '&' e :=
      splitOnC_sep '&' ("v=".toList ++ id) e hnoamp
    unfold getQueryFirst parse_qsl
    rw [hq]
    simp [hpair2]

theorem extract_short_of_id (id : Str) (hid : id.all idChar = true) :
    extract_video_id ("https://youtu.be/".toList ++ id) = .ok (some id) := by
  simp only [extract_video_id]
  rw [urlparse_short id hid]
  simp only []
  rw [if_pos (by decide : hostnameOf "youtu.be".toList = "youtu.be".toList)]
  simp

theorem extract_watch_of_id (id extra : Str) (hne : id ≠ [])
    (hid : id.all idChar = true)
    (hx : extra = [] ∨ ∃ e, extra = '&' :: e ∧
      ∀ a ∈ e, a ≠ '#' ∧ a ≠ '\t' ∧ a ≠ '\r' ∧ a ≠ '\n') :
    extract_video_id ("https://www.youtube.com/watch?v=".toList ++ id ++ extra) =
      .ok (some id) := by
  have hx2 : extra = [] ∨ ∃ e, extra = '&' :: e := by
    rcases hx with rfl | ⟨e, rfl, -⟩
    · exact Or.inl rfl
    · exact Or.inr ⟨e, rfl⟩
  simp only [extract_video_id]
  rw [urlparse_watch id extra hid hx]
  simp only []
  rw [if_neg (by decide : ¬hostnameOf "www.youtube.com".toList = "youtu.be".toList)]
  rw [if_pos (Or.inl (by decide :
    hostnameOf "www.youtube.com".toList = "www.youtube.com".toList))]
  rw [if_pos trivial]
  rw [getQueryFirst_v id extra hne hid hx2]

theorem extract_embed_of_id (id : Str) (hid : id.all idChar = true) :
    extract_video_id ("https://www.youtube.com/embed/".toList ++ id) =
      .ok (some id) := by
  have hnw : "/embed/".toList ++ id ≠ "/watch".toList := by
    intro h
    have h3 := congrArg (List.take 3) h
    simp [List.take] at h3
  have hsw : startsWithL "/embed/".toList ("/embed/".toList ++ id) = true :=
    startsWithL_append _ _
  have hsplit : splitOnC '/' ("/embed/".toList ++ id) =
      [[], "embed".toList, id] := by
    have h2 : splitOnC '/' ("embed".toList ++ '/' :: id) =
        "embed".toList :: splitOnC '/' id :=
      splitOnC_sep '/' "embed".toList id (by decide)
    have h3 : splitOnC '/' id = [id] :=
      splitOnC_nosep '/' id (all_ne_of_idChar hid (by decide))
    have h1 : splitOnC '/' (([] : Str) ++ '/' :: ("embed".toList ++ '/' :: id)) =
        [] :: splitOnC '/' ("embed".toList ++ '/' :: id) :=
      splitOnC_sep '/' [] _ (by simp)
    exact h1.trans (by rw [h2, h3])
  simp only [extract_video_id]
  rw [urlparse_embed id hid]
  simp only []
  rw [if_neg (by decide : ¬hostnameOf "www.youtube.com".toList = "youtu.be".toList)]
  rw [if_pos (Or.inl (by decide :
    hostnameOf "www.youtube.com".toList = "www.youtube.com".toList))]
  rw [if_neg hnw]
  rw [if_pos (by rw [hsw]; simp)]
  rw [hsplit]
  rfl

theorem extract_vpath_of_id (id : Str) (hid : id.all idChar = true) :
    extract_video_id ("https://www.youtube.com/v/".toList ++ id) =
      .ok (some id) := by
  have hnw : "/v/".toList ++ id ≠ "/watch".toList := by
    intro h
    have h3 := congrArg (List.take 2) h
    simp [List.take] at h3
  have hsw : startsWithL "/v/".toList ("/v/".toList ++ id) = true :=
    startsWithL_append _ _
  have hsplit : splitOnC '/' ("/v/".toList ++ id) = [[], "v".toList, id] := by
    have h2 : splitOnC '/' ("v".toList ++ '/' :: id) =
        "v".toList :: splitOnC '/' id :=
      splitOnC_sep '/' "v".toList id (by decide)
    have h3 : splitOnC '/' id = [id] :=
      splitOnC_nosep '/' id (all_ne_of_idChar hid (by decide))
    have h1 : splitOnC '/' (([] : Str) ++ '/' :: ("v".toList ++ '/' :: id)) =
        [] :: splitOnC '/' ("v".toList ++ '/' :: id) :=
      splitOnC_sep '/' [] _ (by simp)
    exact h1.trans (by rw [h2, h3])
  simp only [extract_video_id]
  rw [urlparse_vpath id hid]
  simp only []
  rw [if_neg (by decide : ¬hostnameOf "www.youtube.com".toList = "youtu.be".toList)]
  rw [if_pos (Or.inl (by decide :
    hostnameOf "www.youtube.com".toList = "www.youtube.com".toList))]
  rw [if_neg hnw]
  rw [if_pos (by rw [hsw]; simp)]
  rw [hsplit]
  rfl

theorem extract_none_of_unknown_host (url : Str) (parts : UrlParts)
    (hok : urlparse url = .ok parts)
    (h : hostnameOf parts.netloc ∉ knownHosts) :
    extract_video_id url = .ok none := by
  simp only [knownHosts, List.mem_cons, List.mem_singleton, not_or] at h
  have h1 : hostnameOf parts.netloc ≠
      ['y', 'o', 'u', 't', 'u', '.', 'b', 'e'] := h.1
  have h2 : hostnameOf parts.netloc ≠
      ['w', 'w', 'w', '.', 'y', 'o', 'u', 't', 'u', 'b', 'e', '.', 'c', 'o', 'm'] :=
    h.2.1
  have h3 : hostnameOf parts.netloc ≠
      ['y', 'o', 'u', 't', 'u', 'b', 'e', '.', 'c', 'o', 'm'] := h.2.2.1
  simp [extract_video_id, hok, h1, h2, h3]

theorem extract_none_of_watch_without_v (url : Str) (parts : UrlParts)
    (hok : urlparse url = .ok parts)
    (hhost : hostnameOf parts.netloc = "www.youtube.com".toList ∨
      hostnameOf parts.netloc = "youtube.com".toList)
    (hpath : parts.path = "/watch".toList)
    (hnov : getQueryFirst parts.query "v".toList = none) :
    extract_video_id url = .ok none := by
  have hpath2 : parts.path = ['/', 'w', 'a', 't', 'c', 'h'] := hpath
  have hnov2 : getQueryFirst parts.query ['v'] = none := hnov
  rcases hhost with h | h <;> simp [extract_video_id, hok, h, hpath2, hnov2]

theorem extract_raises_of_urlparse_error (url : Str) (e : UrlError)
    (herr : urlparse url = .error e) :
    extract_video_id url = .error e := by
  simp [extract_video_id, herr]

/-! ## Claim theorems. -/

/-- C2, counterexample: two non-matching inputs refute the claim.  The
short-link URL `https://youtu.be/` embeds no identifier (a missing
required component), so the claim requires the absent value, yet
`extract_video_id` returns the present empty string; and on
`https://[a/x` — any-other-host territory — `urlparse` raises
`ValueError("Invalid IPv6 URL")` (unbalanced bracket in the netloc),
which propagates out of `extract_video_id`, refuting "returns absent
without throwing". -/
theorem extract_empty_short_counterexample :
    extract_video_id "https://youtu.be/".toList = .ok (some []) ∧
    extract_video_id "https://youtu.be/".toList ≠ .ok none ∧
    extract_video_id "https://[a/x".toList = .error .invalidIpv6 :=
  ⟨by decide, by decide, by decide⟩

/-- C2, amended: for every URL built from a known shape around a
non-empty identifier made of identifier characters, `extract_video_id`
returns exactly that identifier; for every ASCII URL whose parse
succeeds, an unrecognized host yields absent, as does `/watch` without
a usable `v` parameter; the three cited examples hold.  Two exceptions
forced by the code: a URL whose netloc has unbalanced brackets (or an
invalid bracketed host) makes `extract_video_id` raise the `urlsplit`
`ValueError` instead of returning absent, and a recognized host with an
empty identifier segment (e.g. `https://youtu.be/`) yields the present
empty string rather than absent. -/
theorem extract_video_id_known_shapes (id extra : Str) (hne : id ≠ [])
    (hid : id.all idChar = true)
    (hx : extra = [] ∨ ∃ e, extra = '&' :: e ∧
      ∀ a ∈ e, a ≠ '#' ∧ a ≠ '\t' ∧ a ≠ '\r' ∧ a ≠ '\n') :
    extract_video_id ("https://youtu.be/".toList ++ id) = .ok (some id) ∧
    extract_video_id ("https://www.youtube.com/watch?v=".toList ++ id ++ extra) =
      .ok (some id) ∧
    extract_video_id ("https://www.youtube.com/embed/".toList ++ id) =
      .ok (some id) ∧
    extract_video_id ("https://www.youtube.com/v/".toList ++ id) =
      .ok (some id) ∧
    (∀ url parts, url.all isAsciiC = true → urlparse url = .ok parts →
      hostnameOf parts.netloc ∉ knownHosts →
      extract_video_id url = .ok none) ∧
    (∀ url parts, url.all isAsciiC = true → urlparse url = .ok parts →
      (hostnameOf parts.netloc = "www.youtube.com".toList ∨
        hostnameOf parts.netloc = "youtube.com".toList) →
      parts.path = "/watch".toList →
      getQueryFirst parts.query "v".toList = none →
      extract_video_id url = .ok none) ∧
    (∀ url e, urlparse url = .error e → extract_video_id url = .error e) ∧
    extract_video_id "https://youtu.be/abc123".toList =
      .ok (some "abc123".toList) ∧
    extract_video_id "https://www.youtube.com/watch?v=abc123&t=5".toList =
      .ok (some "abc123".toList) ∧
    extract_video_id "https://example.com/x".toList = .ok none ∧
    extract_video_id "https://[a/x".toList = .error .invalidIpv6 ∧
    extract_video_id "https://youtu.be/".toList = .ok (some []) :=
  ⟨extract_short_of_id id hid,
   extract_watch_of_id id extra hne hid hx,
   extract_embed_of_id id hid,
   extract_vpath_of_id id hid,
   fun url parts _ hok h => extract_none_of_unknown_host url parts hok h,
   fun url parts _ hok hh hp hv =>
     extract_none_of_watch_without_v url parts hok hh hp hv,
   extract_raises_of_urlparse_error,
   by decide, by decide, by decide, by decide, by decide⟩

/-- Closed instance of the amended C2 theorem at a concrete identifier
and trailing parameter, plus the absent and raising examples. -/
theorem extract_video_id_known_shapes_witness :
    extract_video_id ("https://youtu.be/".toList ++ "abc123".toList) =
      .ok (some "abc123".toList) ∧
    extract_video_id
        ("https://www.youtube.com/watch?v=".toList ++ "abc123".toList ++
          "&t=5".toList) =
      .ok (some "abc123".toList) ∧
    extract_video_id "https://example.com/x".toList = .ok none ∧
    extract_video_id "https://[a/x".toList = .error .invalidIpv6 := by
  have h := extract_video_id_known_shapes "abc123".toList "&t=5".toList
    (by decide) (by decide) (Or.inr ⟨"t=5".toList, rfl, by decide⟩)
  exact ⟨h.1, h.2.1, h.2.2.2.2.2.2.2.2.2.1, h.2.2.2.2.2.2.2.2.2.2.1⟩

/-- C3: each of the three failure outcomes of the captions service is
caught inside `get_transcript`, surfaced as its own distinct report
(disabled as an error, not-found as a warning with different text, any
other exception as an error carrying the underlying message), and turned
into the absent result; a successful call yields a present result, so
the caller only ever sees presence or absence, never an exception. -/
theorem get_transcript_failures_distinct (w : World) (vid : Str) :
    (w.fetch vid LANGS = .transcriptsDisabled →
      get_transcript w vid =
        (none, [.fetchCall vid LANGS, .report (.error disabledMsg)])) ∧
    (w.fetch vid LANGS = .noTranscriptFound →
      get_transcript w vid =
        (none, [.fetchCall vid LANGS, .report (.warning noTranscriptMsg)])) ∧
    (∀ m, w.fetch vid LANGS = .otherError m →
      get_transcript w vid =
        (none, [.fetchCall vid LANGS, .report (.error (fetchErrPre ++ m))])) ∧
    (∀ entries, w.fetch vid LANGS = .ok entries →
      get_transcript w vid =
        (some (joinSpace (entries.map (fun e => e.text))),
         [.fetchCall vid LANGS])) ∧
    Msg.error disabledMsg ≠ Msg.warning noTranscriptMsg ∧
    (∀ m, Msg.error (fetchErrPre ++ m) ≠ Msg.error disabledMsg) ∧
    (∀ m, Msg.error (fetchErrPre ++ m) ≠ Msg.warning noTranscriptMsg) := by
  refine ⟨?_, ?_, ?_, ?_, by simp, ?_, by intro m h; simp at h⟩
  · intro h
    unfold get_transcript
    rw [h]
  · intro h
    unfold get_transcript
    rw [h]
  · intro m h
    unfold get_transcript
    rw [h]
  · intro entries h
    unfold get_transcript
    rw [h]
  · intro m h
    simp only [Msg.error.injEq] at h
    have h0 := congrArg List.head? h
    simp [fetchErrPre, disabledMsg] at h0

/-- Closed instance of the C3 theorem: a disabled-captions world yields
the absent result with the distinct disabled report. -/
theorem get_transcript_failures_distinct_witness :
    get_transcript wDisabled "abc123".toList =
      (none, [.fetchCall "abc123".toList LANGS, .report (.error disabledMsg)]) :=
  (get_transcript_failures_distinct wDisabled "abc123".toList).1 (by decide)

/-- C4: both failure shapes of the generation endpoint (zero candidates
and transport error) are caught inside `summarize_text_gemini`, reported
as a single error whose text carries the underlying cause verbatim, and
turned into the absent result after exactly one endpoint call (no
retry); a successful call returns the first candidate's text. -/
theorem summarize_failures_nonfatal (w : World) (text : Str) (wc : Nat) :
    (∀ m, w.gen (promptFor wc text) = .noCandidates m →
      summarize_text_gemini w text wc =
        (none, [.genCall (promptFor wc text),
                .report (.error (summErrPre ++ m))])) ∧
    (∀ m, w.gen (promptFor wc text) = .transportError m →
      summarize_text_gemini w text wc =
        (none, [.genCall (promptFor wc text),
                .report (.error (summErrPre ++ m))])) ∧
    (∀ t, w.gen (promptFor wc text) = .candidates t →
      summarize_text_gemini w text wc =
        (some t, [.genCall (promptFor wc text)])) ∧
    (∀ m, (summErrPre ++ m).drop summErrPre.length = m) := by
  refine ⟨?_, ?_, ?_, fun m => List.drop_left summErrPre m⟩
  · intro m h
    unfold summarize_text_gemini
    rw [h]
  · intro m h
    unfold summarize_text_gemini
    rw [h]
  · intro t h
    unfold summarize_text_gemini
    rw [h]

/-- Closed instance of the C4 theorem: a zero-candidate world yields the
absent result and the single report including the cause. -/
theorem summarize_failures_nonfatal_witness :
    summarize_text_gemini wNoCand "some transcript".toList 400 =
      (none, [.genCall (promptFor 400 "some transcript".toList),
              .report (.error (summErrPre ++ "response has no candidates".toList))]) :=
  (summarize_failures_nonfatal wNoCand "some transcript".toList 400).1
    "response has no candidates".toList (by decide)

/-- C8: whenever the captions service returns a sequence of entries, the
fetcher's present result is exactly the entry texts joined with single
spaces, in the order the service returned them, with no re-sorting or
filtering. -/
theorem transcript_join_in_order (w : World) (vid : Str)
    (entries : List CaptionEntry) (hf : w.fetch vid LANGS = .ok entries) :
    (get_transcript w vid).1 =
      some (joinSpace (entries.map (fun e => e.text))) := by
  unfold get_transcript
  rw [hf]

/-- Closed instance of the C8 theorem at a concrete two-entry service
response. -/
theorem transcript_join_in_order_witness :
    (get_transcript wOk "abc123".toList).1 = some "hello world".toList := by
  have h := transcript_join_in_order wOk "abc123".toList
    [⟨"hello".toList, 0, 2⟩, ⟨"world".toList, 2, 2⟩] (by decide)
  rw [h]
  decide

/-- C5: `create_pdf` is total — every temp-file outcome maps to either a
present path with the document written, or an absent result with a
report, never an uncaught exception; the written document is the
non-empty FPDF structure around the latin-1 re-encoding of the summary,
in which every character above U+00FF has been replaced by `?` and every
other character kept, position by position. -/
theorem create_pdf_latin1_total (w : World) (s : Str) :
    (∀ p, w.pdfTemp = .ok p →
      create_pdf w s =
        (some p, [.pdfCall s,
                  .fileCreated p (fpdfOutput (latin1Replace s))])) ∧
    (∀ m, w.pdfTemp = .createFail m →
      create_pdf w s =
        (none, [.pdfCall s, .report (.error (pdfErrPre ++ m))])) ∧
    (∀ p m, w.pdfTemp = .outputFail p m →
      create_pdf w s =
        (none, [.pdfCall s, .fileCreated p [],
                .report (.error (pdfErrPre ++ m))])) ∧
    fpdfOutput (latin1Replace s) ≠ [] ∧
    (∀ i : Nat, (latin1Replace s)[i]? =
      (s[i]?).map (fun c => if c.toNat ≤ 255 then c else '?')) ∧
    (∀ c ∈ latin1Replace s, c.toNat ≤ 255) := by
  refine ⟨?_, ?_, ?_, by simp [fpdfOutput], ?_, ?_⟩
  · intro p h
    unfold create_pdf
    rw [h]
  · intro m h
    unfold create_pdf
    rw [h]
  · intro p m h
    unfold create_pdf
    rw [h]
  · intro i
    simp [latin1Replace, List.getElem?_map]
  · intro c hc
    rcases List.mem_map.mp hc with ⟨a, _, rfl⟩
    by_cases h : a.toNat ≤ 255
    · simp [h]
    · simp [h]

/-- Closed instance of the C5 theorem on a summary containing a
character outside latin-1 (`✓`, U+2713), which is replaced by `?` while
the export still succeeds. -/
theorem create_pdf_latin1_total_witness :
    create_pdf wOk "done ✓".toList =
      (some "/tmp/summary.pdf".toList,
       [.pdfCall "done ✓".toList,
        .fileCreated "/tmp/summary.pdf".toList
          (fpdfOutput (latin1Replace "done ✓".toList))]) ∧
    latin1Replace "done ✓".toList = "done ?".toList := by
  refine ⟨(create_pdf_latin1_total wOk "done ✓".toList).1
    "/tmp/summary.pdf".toList (by decide), by decide⟩

/-- C7, counterexample: with a captions service returning an empty entry
sequence the fetch succeeds — the result is present, not absent — yet
the concatenated transcript string is empty, refuting the claim that a
successful fetch always delivers a non-empty string. -/
theorem transcript_success_empty_counterexample :
    (get_transcript wEmptyT "abc123".toList).1 = some [] ∧
    (get_transcript wEmptyT "abc123".toList).1 ≠ none := by
  constructor <;> decide

/-- C7, amended: a successful fetch delivers the space-join of the
service's entry texts, and that string is non-empty whenever the service
returned at least two entries or a first entry with non-empty text; an
empty entry sequence (or a single empty-text entry) instead yields a
present empty string. -/
theorem transcript_present_nonempty_amended (w : World) (vid : Str)
    (entries : List CaptionEntry) (hf : w.fetch vid LANGS = .ok entries)
    (hne : 2 ≤ entries.length ∨ ∃ e rest, entries = e :: rest ∧ e.text ≠ []) :
    (get_transcript w vid).1 =
      some (joinSpace (entries.map (fun e => e.text))) ∧
    joinSpace (entries.map (fun e => e.text)) ≠ [] := by
  refine ⟨by unfold get_transcript; rw [hf], ?_⟩
  cases entries with
  | nil =>
    rcases hne with h | ⟨e, rest, h, -⟩
    · simp at h
    · simp at h
  | cons e rest1 =>
    cases rest1 with
    | nil =>
      rcases hne with h | ⟨e2, rest, h, ht⟩
      · simp at h
      · have he : e2 = e := by
          have h0 := congrArg List.head? h
          simpa using h0.symm
        subst he
        simp [joinSpace]
        exact ht
    | cons e2 rest2 => simp [joinSpace]

/-- Closed instance of the amended C7 theorem at a two-entry service
response. -/
theorem transcript_present_nonempty_amended_witness :
    (get_transcript wOk "abc123".toList).1 = some "hello world".toList ∧
    ("hello world".toList : Str) ≠ [] := by
  have h := transcript_present_nonempty_amended wOk "abc123".toList
    [⟨"hello".toList, 0, 2⟩, ⟨"world".toList, 2, 2⟩] (by decide)
    (Or.inl (by decide))
  refine ⟨?_, by decide⟩
  rw [h.1]
  decide

/-- C9: when the credential is absent from the secret store, the script
run is exactly the diagnostic report followed by the halt, before any
pipeline activity: no captions fetch, no generation call, no speech
synthesis and no document export can occur in such a run. -/
theorem missing_key_halts_startup (w : World) (inp : Inputs)
    (h : inp.secrets = none) :
    runScript w inp = [.report (.error apiKeyMissingMsg), .halted] ∧
    (∀ v l, Event.fetchCall v l ∉ runScript w inp) ∧
    (∀ p, Event.genCall p ∉ runScript w inp) ∧
    (∀ s, Event.ttsCall s ∉ runScript w inp) ∧
    (∀ s, Event.pdfCall s ∉ runScript w inp) := by
  have h1 : runScript w inp = [.report (.error apiKeyMissingMsg), .halted] := by
    unfold runScript
    rw [h]
  exact ⟨h1, by simp [h1], by simp [h1], by simp [h1], by simp [h1]⟩

/-- Closed instance of the C9 theorem at the missing-credential
inputs. -/
theorem missing_key_halts_startup_witness :
    runScript wOk inpNoKey = [.report (.error apiKeyMissingMsg), .halted] ∧
    (∀ v l, Event.fetchCall v l ∉ runScript wOk inpNoKey) :=
  ⟨(missing_key_halts_startup wOk inpNoKey rfl).1,
   (missing_key_halts_startup wOk inpNoKey rfl).2.1⟩

/-- C10: on the empty-path short-link URL `https://youtu.be/`,
`extract_video_id` returns the present empty string — not absent — and
the orchestrator's truthiness test treats that empty identifier exactly
like absence: the run reports the invalid-URL error and invokes no later
stage, so the pipeline's public interface still only exposes a non-empty
identifier or a failure report. -/
theorem empty_short_path_treated_as_absent :
    extract_video_id "https://youtu.be/".toList = .ok (some []) ∧
    (∀ w k wc, runScript w ⟨some k, "https://youtu.be/".toList, wc, true⟩ =
      [.report (.error invalidUrlMsg)]) ∧
    (∀ w k wc v l, Event.fetchCall v l ∉
      runScript w ⟨some k, "https://youtu.be/".toList, wc, true⟩) := by
  have hx : extract_video_id "https://youtu.be/".toList = .ok (some []) := by
    decide
  have h2 : ∀ (w : World) (k : Str) (wc : Nat),
      runScript w ⟨some k, "https://youtu.be/".toList, wc, true⟩ =
        [.report (.error invalidUrlMsg)] := by
    intro w k wc
    have hx2 : extract_video_id
        ['h', 't', 't', 'p', 's', ':', '/', '/', 'y', 'o', 'u', 't', 'u', '.', 'b', 'e', '/'] =
        .ok (some []) := hx
    unfold runScript
    simp [hx2]
  exact ⟨hx, h2, by intro w k wc v l; rw [h2 w k wc]; simp⟩

/-! ## Trace helper lemmas for the orchestrator claims. -/

theorem get_transcript_no_gen (w : World) (vid p : Str) :
    Event.genCall p ∉ (get_transcript w vid).2 := by
  rcases hf : w.fetch vid LANGS <;> simp [get_transcript, hf]

theorem get_transcript_no_tts (w : World) (vid p : Str) :
    Event.ttsCall p ∉ (get_transcript w vid).2 := by
  rcases hf : w.fetch vid LANGS <;> simp [get_transcript, hf]

theorem get_transcript_no_pdf (w : World) (vid p : Str) :
    Event.pdfCall p ∉ (get_transcript w vid).2 := by
  rcases hf : w.fetch vid LANGS <;> simp [get_transcript, hf]

theorem get_transcript_no_del (w : World) (vid p : Str) :
    Event.fileDeleted p ∉ (get_transcript w vid).2 := by
  rcases hf : w.fetch vid LANGS <;> simp [get_transcript, hf]

theorem get_transcript_report_of_none (w : World) (vid : Str)
    (h : (get_transcript w vid).1 = none) :
    ∃ m, Event.report m ∈ (get_transcript w vid).2 := by
  rcases hf : w.fetch vid LANGS <;> simp [get_transcript, hf] at h ⊢

theorem summarize_no_del (w : World) (text : Str) (wc : Nat) (p : Str) :
    Event.fileDeleted p ∉ (summarize_text_gemini w text wc).2 := by
  rcases hg : w.gen (promptFor wc text) <;> simp [summarize_text_gemini, hg]

theorem create_pdf_no_del (w : World) (s p : Str) :
    Event.fileDeleted p ∉ (create_pdf w s).2 := by
  rcases hp : w.pdfTemp <;> simp [create_pdf, hp]

theorem generate_tts_no_del (w : World) (s p : Str) :
    Event.fileDeleted p ∉ (generate_tts w s).2 := by
  rcases ht : w.tts s <;> simp [generate_tts, ht]

theorem runScript_eq_of_no_key (w : World) (inp : Inputs)
    (hsec : inp.secrets = none) :
    runScript w inp = [.report (.error apiKeyMissingMsg), .halted] := by
  unfold runScript
  rw [hsec]

theorem runScript_eq_of_not_pressed (w : World) (inp : Inputs) (k : Str)
    (hsec : inp.secrets = some k) (hbp : inp.buttonPressed = false) :
    runScript w inp = [] := by
  unfold runScript
  rw [hsec]
  simp [hbp]

theorem runScript_eq_of_empty_url (w : World) (inp : Inputs) (k : Str)
    (hsec : inp.secrets = some k) (hbp : inp.buttonPressed = true)
    (hurl : inp.url = []) :
    runScript w inp = [.report (.warning enterUrlMsg)] := by
  unfold runScript
  rw [hsec]
  simp [hbp, hurl]

theorem runScript_eq_of_crash (w : World) (inp : Inputs) (k : Str)
    (e : UrlError)
    (hsec : inp.secrets = some k) (hbp : inp.buttonPressed = true)
    (hurl : inp.url ≠ []) (hex : extract_video_id inp.url = .error e) :
    runScript w inp = [.crashed e] := by
  unfold runScript
  rw [hsec]
  simp [hbp, hurl, hex]

theorem runScript_eq_of_extract_none (w : World) (inp : Inputs) (k : Str)
    (hsec : inp.secrets = some k) (hbp : inp.buttonPressed = true)
    (hurl : inp.url ≠ []) (hex : extract_video_id inp.url = .ok none) :
    runScript w inp = [.report (.error invalidUrlMsg)] := by
  unfold runScript
  rw [hsec]
  simp [hbp, hurl, hex]

theorem runScript_eq_of_extract_empty (w : World) (inp : Inputs) (k : Str)
    (hsec : inp.secrets = some k) (hbp : inp.buttonPressed = true)
    (hurl : inp.url ≠ []) (hex : extract_video_id inp.url = .ok (some [])) :
    runScript w inp = [.report (.error invalidUrlMsg)] := by
  unfold runScript
  rw [hsec]
  simp [hbp, hurl, hex]

theorem runScript_eq_of_fetch_none (w : World) (inp : Inputs) (k vid : Str)
    (hsec : inp.secrets = some k) (hbp : inp.buttonPressed = true)
    (hurl : inp.url ≠ []) (hex : extract_video_id inp.url = .ok (some vid))
    (hvid : vid ≠ []) (hfet : (get_transcript w vid).1 = none) :
    runScript w inp =
      Event.showImage (get_youtube_thumbnail_url vid) ::
        (get_transcript w vid).2 := by
  unfold runScript
  rw [hsec]
  simp [hbp, hurl, hex, hvid, hfet]

theorem runScript_no_del (w : World) (inp : Inputs) (p : Str) :
    Event.fileDeleted p ∉ runScript w inp := by
  rcases hsec : inp.secrets with - | k
  · simp [runScript_eq_of_no_key w inp hsec]
  cases hbp : inp.buttonPressed with
  | false => simp [runScript_eq_of_not_pressed w inp k hsec hbp]
  | true =>
    by_cases hurl : inp.url = []
    · simp [runScript_eq_of_empty_url w inp k hsec hbp hurl]
    rcases hex : extract_video_id inp.url with e | ovid
    · simp [runScript_eq_of_crash w inp k e hsec hbp hurl hex]
    rcases ovid with - | vid
    · simp [runScript_eq_of_extract_none w inp k hsec hbp hurl hex]
    by_cases hvid : vid = []
    · subst hvid
      simp [runScript_eq_of_extract_empty w inp k hsec hbp hurl hex]
    rcases hfet : (get_transcript w vid).1 with - | transcript
    · simp [runScript_eq_of_fetch_none w inp k vid hsec hbp hurl hex hvid hfet,
        get_transcript_no_del w vid p]
    unfold runScript
    rw [hsec]
    by_cases htr : transcript = []
    · simp [hbp, hurl, hex, hvid, hfet, htr, get_transcript_no_del w vid p]
    rcases hg : w.gen (promptFor inp.wordCount transcript) with t | m | m
    · by_cases hts : t = []
      · simp [hbp, hurl, hex, hvid, hfet, htr, summarize_text_gemini, hg, hts,
          get_transcript_no_del w vid p]
      rcases hpd1 : (create_pdf w t).1 with - | ppath <;>
        rcases htt1 : (generate_tts w t).1 with - | apath <;>
          simp [hbp, hurl, hex, hvid, hfet, htr, summarize_text_gemini, hg, hts,
            hpd1, htt1, get_transcript_no_del w vid p, create_pdf_no_del w t p,
            generate_tts_no_del w t p]
    · simp [hbp, hurl, hex, hvid, hfet, htr, summarize_text_gemini, hg,
        get_transcript_no_del w vid p]
    · simp [hbp, hurl, hex, hvid, hfet, htr, summarize_text_gemini, hg,
        get_transcript_no_del w vid p]

/-- C1: the orchestrator runs each stage only on a present previous
result.  When identifier extraction yields absent, the captions service
is never called (nor any later stage) and the run is exactly the
invalid-URL report; when the transcript fetch yields absent, the
generation endpoint, speech synthesis and document export are never
called, the run stops right after the fetch stage's own events, and a
report has been emitted; and when extraction raises, the run ends with
the crash and still no stage is invoked. -/
theorem pipeline_short_circuits (w : World) (inp : Inputs) :
    (extract_video_id inp.url = .ok none →
      (∀ v l, Event.fetchCall v l ∉ runScript w inp) ∧
      (∀ p, Event.genCall p ∉ runScript w inp) ∧
      (∀ s, Event.ttsCall s ∉ runScript w inp) ∧
      (∀ s, Event.pdfCall s ∉ runScript w inp) ∧
      (∀ k, inp.secrets = some k → inp.buttonPressed = true → inp.url ≠ [] →
        runScript w inp = [.report (.error invalidUrlMsg)])) ∧
    (∀ vid, extract_video_id inp.url = .ok (some vid) →
      (get_transcript w vid).1 = none →
      (∀ p, Event.genCall p ∉ runScript w inp) ∧
      (∀ s, Event.ttsCall s ∉ runScript w inp) ∧
      (∀ s, Event.pdfCall s ∉ runScript w inp) ∧
      (∀ k, inp.secrets = some k → inp.buttonPressed = true → inp.url ≠ [] →
        vid ≠ [] →
        runScript w inp =
          Event.showImage (get_youtube_thumbnail_url vid) ::
            (get_transcript w vid).2 ∧
        ∃ m, Event.report m ∈ runScript w inp)) ∧
    (∀ e, extract_video_id inp.url = .error e →
      (∀ v l, Event.fetchCall v l ∉ runScript w inp) ∧
      (∀ p, Event.genCall p ∉ runScript w inp) ∧
      (∀ s, Event.ttsCall s ∉ runScript w inp) ∧
      (∀ s, Event.pdfCall s ∉ runScript w inp) ∧
      (∀ k, inp.secrets = some k → inp.buttonPressed = true → inp.url ≠ [] →
        runScript w inp = [.crashed e])) := by
  refine ⟨?_, ?_, ?_⟩
  · intro hex
    rcases hsec : inp.secrets with - | k
    · have ht := runScript_eq_of_no_key w inp hsec
      refine ⟨by simp [ht], by simp [ht], by simp [ht], by simp [ht], ?_⟩
      intro k2 hk
      exact absurd hk (by simp)
    cases hbp : inp.buttonPressed with
    | false =>
      have ht := runScript_eq_of_not_pressed w inp k hsec hbp
      refine ⟨by simp [ht], by simp [ht], by simp [ht], by simp [ht], ?_⟩
      intro k2 _ hbp2
      exact absurd hbp2 (by simp)
    | true =>
      by_cases hurl : inp.url = []
      · have ht := runScript_eq_of_empty_url w inp k hsec hbp hurl
        refine ⟨by simp [ht], by simp [ht], by simp [ht], by simp [ht], ?_⟩
        intro k2 _ _ hurl2
        exact absurd hurl hurl2
      · have ht := runScript_eq_of_extract_none w inp k hsec hbp hurl hex
        exact ⟨by simp [ht], by simp [ht], by simp [ht], by simp [ht],
          fun k2 _ _ _ => ht⟩
  · intro vid hex hfet
    rcases hsec : inp.secrets with - | k
    · have ht := runScript_eq_of_no_key w inp hsec
      refine ⟨by simp [ht], by simp [ht], by simp [ht], ?_⟩
      intro k2 hk
      exact absurd hk (by simp)
    cases hbp : inp.buttonPressed with
    | false =>
      have ht := runScript_eq_of_not_pressed w inp k hsec hbp
      refine ⟨by simp [ht], by simp [ht], by simp [ht], ?_⟩
      intro k2 _ hbp2
      exact absurd hbp2 (by simp)
    | true =>
      by_cases hurl : inp.url = []
      · have ht := runScript_eq_of_empty_url w inp k hsec hbp hurl
        refine ⟨by simp [ht], by simp [ht], by simp [ht], ?_⟩
        intro k2 _ _ hurl2
        exact absurd hurl hurl2
      by_cases hvid : vid = []
      · subst hvid
        have ht := runScript_eq_of_extract_empty w inp k hsec hbp hurl hex
        refine ⟨by simp [ht], by simp [ht], by simp [ht], ?_⟩
        intro k2 _ _ _ hvid2
        exact absurd rfl hvid2
      have ht := runScript_eq_of_fetch_none w inp k vid hsec hbp hurl hex hvid hfet
      refine ⟨?_, ?_, ?_, ?_⟩
      · intro q
        rw [ht]
        simp [get_transcript_no_gen w vid q]
      · intro q
        rw [ht]
        simp [get_transcript_no_tts w vid q]
      · intro q
        rw [ht]
        simp [get_transcript_no_pdf w vid q]
      · intro k2 _ _ _ _
        refine ⟨ht, ?_⟩
        rcases get_transcript_report_of_none w vid hfet with ⟨m, hm⟩
        exact ⟨m, by rw [ht]; simp [hm]⟩
  · intro e hex
    rcases hsec : inp.secrets with - | k
    · have ht := runScript_eq_of_no_key w inp hsec
      refine ⟨by simp [ht], by simp [ht], by simp [ht], by simp [ht], ?_⟩
      intro k2 hk
      exact absurd hk (by simp)
    cases hbp : inp.buttonPressed with
    | false =>
      have ht := runScript_eq_of_not_pressed w inp k hsec hbp
      refine ⟨by simp [ht], by simp [ht], by simp [ht], by simp [ht], ?_⟩
      intro k2 _ hbp2
      exact absurd hbp2 (by simp)
    | true =>
      by_cases hurl : inp.url = []
      · have ht := runScript_eq_of_empty_url w inp k hsec hbp hurl
        refine ⟨by simp [ht], by simp [ht], by simp [ht], by simp [ht], ?_⟩
        intro k2 _ _ hurl2
        exact absurd hurl hurl2
      · have ht := runScript_eq_of_crash w inp k e hsec hbp hurl hex
        exact ⟨by simp [ht], by simp [ht], by simp [ht], by simp [ht],
          fun k2 _ _ _ => ht⟩

/-- Closed instance of the C1 theorem: in a disabled-captions world the
generation endpoint is never called and the run stops right after the
fetch stage. -/
theorem pipeline_short_circuits_witness :
    (∀ p, Event.genCall p ∉ runScript wDisabled inpOk) ∧
    runScript wDisabled inpOk =
      Event.showImage (get_youtube_thumbnail_url "abc123".toList) ::
        (get_transcript wDisabled "abc123".toList).2 := by
  have h := (pipeline_short_circuits wDisabled inpOk).2.1 "abc123".toList
    (by decide) (by decide)
  exact ⟨h.1, (h.2.2.2 "KEY".toList rfl rfl (by decide) (by decide)).1⟩

/-- C6 (violated by the code): no execution of the pipeline ever
deletes a file — the event vocabulary has `fileDeleted` but no branch of
the translated script emits it — while a fully successful run creates
both ephemeral files (the exported PDF and the narration MP3), which are
therefore left behind after the response is served. -/
theorem temp_files_never_deleted :
    (∀ (w : World) (inp : Inputs) (p : Str),
      Event.fileDeleted p ∉ runScript w inp) ∧
    Event.fileCreated "/tmp/summary.pdf".toList
        (fpdfOutput (latin1Replace "A short summary.".toList)) ∈
      runScript wOk inpOk ∧
    Event.fileCreated "/tmp/audio.mp3".toList "AUDIOBYTES".toList ∈
      runScript wOk inpOk :=
  ⟨runScript_no_del, by decide, by decide⟩

end YTS
